import Mathlib

/-
Verification of the Pomodoro timer core: the TimerEngine state machine
(timer_engine.py) and the dial geometry conversions (ui_widget.py).
The engine is embedded as a pure state-passing function on an `Engine`
record; Qt signal emissions are modelled as an explicit list of events
returned by each operation.  The 1Hz QTimer is modelled by the fact
that the tick handler runs only while the state is `running` (the code
starts the QTimer exactly when entering RUNNING and stops it on every
transition out of RUNNING).
-/

namespace Pomodoro

/-- Modes, `MODE_WORK` / `MODE_SHORT` / `MODE_LONG` in constants.py. -/
inductive Mode
  | work
  | short
  | long
deriving DecidableEq, Repr

/-- Run states, class `TimerState` in timer_engine.py. -/
inductive TimerState
  | idle
  | running
  | paused
deriving DecidableEq, Repr

/-- `SETS_BEFORE_LONG = 4` in constants.py. -/
def SETS_BEFORE_LONG : ℤ := 4

/-- `MAX_DIAL_MIN = 60` in constants.py. -/
def MAX_DIAL_MIN : ℤ := 60

/-- The slice of the external `Settings` object the engine reads and writes:
preset minutes per mode and the persisted last mode (settings.py). -/
structure Settings where
  preset_work : ℤ
  preset_short : ℤ
  preset_long : ℤ
  last_mode : Mode
deriving DecidableEq, Repr

/-- The `_DEFAULTS` preset values of settings.py: work=25, short=5, long=15,
last_mode = MODE_WORK. -/
def defaultSettings : Settings :=
  { preset_work := 25, preset_short := 5, preset_long := 15,
    last_mode := Mode.work }

/-- The Qt signals of `TimerEngine`: `tick(int)` (remaining changed),
`finished(str)`, `state_changed(str)`, `mode_changed(str)`. -/
inductive Event
  | tickE (remaining : ℤ)
  | finishedE (mode : Mode)
  | stateChangedE (st : TimerState)
  | modeChangedE (m : Mode)
deriving DecidableEq, Repr

/-- The engine state: fields `_mode`, `_state`, `_total_seconds`,
`_remaining`, `_work_count`, `_manual_duration` of `TimerEngine`, together
with the settings object it owns a reference to. -/
structure Engine where
  settings : Settings
  mode : Mode
  state : TimerState
  total_seconds : ℤ
  remaining : ℤ
  work_count : ℤ
  manual_duration : Bool
deriving DecidableEq, Repr

/-- `TimerEngine.__init__`: mode from `settings.last_mode`, state IDLE,
total and remaining 0, work count 0, manual flag True. -/
def initEngine (s : Settings) : Engine :=
  { settings := s, mode := s.last_mode, state := TimerState.idle,
    total_seconds := 0, remaining := 0, work_count := 0,
    manual_duration := true }

/-- The preset minutes looked up by `_load_mode_duration`'s `minutes_map`. -/
def presetOf (s : Settings) : Mode → ℤ
  | Mode.work => s.preset_work
  | Mode.short => s.preset_short
  | Mode.long => s.preset_long

/-- `TimerEngine._load_mode_duration`: total = remaining = preset minutes
of the current mode times 60. -/
def load_mode_duration (e : Engine) : Engine :=
  let mins := presetOf e.settings e.mode
  { e with total_seconds := mins * 60, remaining := mins * 60 }

/-- `TimerEngine.set_duration`: no-op unless IDLE or PAUSED; clamps the
requested seconds into [0, MAX_DIAL_MIN*60], sets total and remaining to the
clamped value, marks the duration manual, emits tick then state_changed. -/
def set_duration (e : Engine) (seconds : ℤ) : Engine × List Event :=
  if e.state = TimerState.idle ∨ e.state = TimerState.paused then
    let max_seconds := MAX_DIAL_MIN * 60
    let clamped := max 0 (min max_seconds seconds)
    let e1 := { e with manual_duration := true, total_seconds := clamped,
                       remaining := clamped }
    (e1, [Event.tickE e1.remaining, Event.stateChangedE e1.state])
  else
    (e, [])

/-- `TimerEngine.reset`: stop the clock, go IDLE, mark manual, zero total
and remaining, emit tick then state_changed. -/
def reset (e : Engine) : Engine × List Event :=
  let e1 := { e with state := TimerState.idle, manual_duration := true,
                     total_seconds := 0, remaining := 0 }
  (e1, [Event.tickE 0, Event.stateChangedE TimerState.idle])

/-- `TimerEngine.set_mode`: stop the clock, go IDLE, set the mode, persist
it as last_mode in settings, mark non-manual, load the preset duration,
emit mode_changed then tick then state_changed. -/
def set_mode (e : Engine) (m : Mode) : Engine × List Event :=
  let e1 := { e with state := TimerState.idle, mode := m,
                     settings := { e.settings with last_mode := m },
                     manual_duration := false }
  let e2 := load_mode_duration e1
  (e2, [Event.modeChangedE e2.mode, Event.tickE e2.remaining,
        Event.stateChangedE e2.state])

/-- `TimerEngine._start`: guard `remaining <= 0`, else go RUNNING (starting
the QTimer) and emit state_changed. -/
def start (e : Engine) : Engine × List Event :=
  if e.remaining ≤ 0 then (e, [])
  else
    ({ e with state := TimerState.running },
     [Event.stateChangedE TimerState.running])

/-- `TimerEngine._pause`: stop the QTimer, go PAUSED, emit state_changed. -/
def pause (e : Engine) : Engine × List Event :=
  ({ e with state := TimerState.paused },
   [Event.stateChangedE TimerState.paused])

/-- `TimerEngine.start_or_pause`: pause when RUNNING, else start only when
remaining > 0. -/
def start_or_pause (e : Engine) : Engine × List Event :=
  if e.state = TimerState.running then pause e
  else if e.remaining > 0 then start e
  else (e, [])

/-- `TimerEngine._advance_mode`: from work, bump the work count and go to
long (resetting the count) once it reaches SETS_BEFORE_LONG, else to short;
from a break go back to work.  Persist the new mode, reload its preset
duration, emit mode_changed then tick. -/
def advance_mode (e : Engine) : Engine × List Event :=
  let e1 :=
    if e.mode = Mode.work then
      if e.work_count + 1 ≥ SETS_BEFORE_LONG then
        { e with mode := Mode.long, work_count := 0 }
      else
        { e with mode := Mode.short, work_count := e.work_count + 1 }
    else
      { e with mode := Mode.work }
  let e2 := { e1 with settings := { e1.settings with last_mode := e1.mode } }
  let e3 := load_mode_duration e2
  (e3, [Event.modeChangedE e3.mode, Event.tickE e3.remaining])

/-- `TimerEngine._on_tick`: decrement remaining, floor at 0, emit tick; on
reaching 0 stop the clock, go IDLE, emit state_changed and finished (with
the mode that just completed), then auto-advance only when the duration is
not manual. -/
def on_tick (e : Engine) : Engine × List Event :=
  let r0 := e.remaining - 1
  let r := if r0 < 0 then 0 else r0
  let e1 := { e with remaining := r }
  if r ≤ 0 then
    let e2 := { e1 with state := TimerState.idle }
    let base := [Event.tickE r, Event.stateChangedE TimerState.idle,
                 Event.finishedE e2.mode]
    if e2.manual_duration then (e2, base)
    else
      let a := advance_mode e2
      (a.1, base ++ a.2)
  else
    (e1, [Event.tickE r])

/-- The public operations a host can invoke on the engine, plus the clock
tick.  The clock fires only while the engine is RUNNING. -/
inductive Op
  | opStartOrPause
  | opSetDuration (seconds : ℤ)
  | opReset
  | opSetMode (m : Mode)
  | opTick
deriving DecidableEq, Repr

/-- Apply one operation.  `opTick` models the external 1Hz clock: the QTimer
is active exactly while the state is RUNNING, so a tick outside RUNNING
never reaches `_on_tick`. -/
def applyOp (e : Engine) (op : Op) : Engine × List Event :=
  match op with
  | Op.opStartOrPause => start_or_pause e
  | Op.opSetDuration s => set_duration e s
  | Op.opReset => reset e
  | Op.opSetMode m => set_mode e m
  | Op.opTick => if e.state = TimerState.running then on_tick e else (e, [])

/-- Apply a list of operations in order, discarding the emitted events. -/
def applyOps (e : Engine) : List Op → Engine
  | [] => e
  | op :: ops => applyOps (applyOp e op).1 ops

/-- An engine state is reachable when some operation sequence produces it
from the freshly constructed engine. -/
def Reachable (s : Settings) (e : Engine) : Prop :=
  ∃ ops : List Op, applyOps (initEngine s) ops = e

/-- Run `n` consecutive clock ticks, accumulating the emitted events. -/
def runTicksEv : Engine → ℕ → Engine × List Event
  | e, 0 => (e, [])
  | e, n + 1 =>
    let p := on_tick e
    let q := runTicksEv p.1 n
    (q.1, p.2 ++ q.2)

/-- One full user session on a loaded duration: press start, then let the
clock tick the whole remaining duration down to expiry. -/
def run_session (e : Engine) : Engine :=
  (runTicksEv (start_or_pause e).1 e.remaining.toNat).1

/-- The tick events a countdown from k+1 emits before its final tick:
tickE k+1-1 = tickE k down to tickE 1 as remaining passes k, ..., 1. -/
def countdownEvs : ℕ → List Event
  | 0 => []
  | k + 1 => Event.tickE ((k : ℤ) + 1) :: countdownEvs k

/-- A concrete engine mid-countdown, used to instantiate theorems about
states with RunState RUNNING. -/
def runningEngine : Engine :=
  { settings := defaultSettings, mode := Mode.work,
    state := TimerState.running, total_seconds := 1500, remaining := 1500,
    work_count := 0, manual_duration := false }

/-- A concrete paused engine with time left on the clock. -/
def pausedEngine : Engine :=
  { runningEngine with state := TimerState.paused }

/-- Recognizer for finished events. -/
def isFinishedEv : Event → Bool
  | Event.finishedE _ => true
  | _ => false

/-- Recognizer for tick events that carry a negative remaining value. -/
def isNegTickEv : Event → Bool
  | Event.tickE r => decide (r < 0)
  | _ => false

/-- The settings used by the C2 counterexample run: a one-minute work
preset so the work session lasts 60 ticks. -/
def ceC2settings : Settings :=
  { preset_work := 1, preset_short := 5, preset_long := 15,
    last_mode := Mode.work }

/-- The state one second before a non-manual work expiry, reached from a
fresh engine by switching to work, starting, and ticking 59 times. -/
def ceC2 : Engine :=
  applyOps (initEngine ceC2settings)
    ([Op.opSetMode Mode.work, Op.opStartOrPause]
      ++ List.replicate 59 Op.opTick)

/-- The start of a pomodoro cycle: a fresh engine switched to work mode,
which loads the work preset non-manually with the counter at 0. -/
def cycleStart (s : Settings) : Engine := (set_mode (initEngine s) Mode.work).1

/-- The reachable state refuting C8: set a duration, start, pause, then
dial the duration down to zero while paused.  The engine is PAUSED with
remaining = 0 and the start/pause toggle is a no-op there, not a
transition to RUNNING. -/
def ceC8 : Engine :=
  applyOps (initEngine defaultSettings)
    [Op.opSetDuration 60, Op.opStartOrPause, Op.opStartOrPause,
     Op.opSetDuration 0]

/-- The spec invariant on an engine snapshot: 0 <= remaining <= total. -/
def Inv (e : Engine) : Prop :=
  0 ≤ e.remaining ∧ e.remaining ≤ e.total_seconds

/-- A 2D point (QPoint coordinates, idealized over the reals). -/
structure Point where
  x : ℝ
  y : ℝ

/-- With at least two seconds left a tick only decrements remaining and
emits the new value. -/
theorem on_tick_running (e : Engine) (h : 2 ≤ e.remaining) :
    on_tick e = ({ e with remaining := e.remaining - 1 },
                 [Event.tickE (e.remaining - 1)]) := by
  simp only [on_tick]
  rw [if_neg (by omega : ¬ e.remaining - 1 < 0),
      if_neg (by omega : ¬ e.remaining - 1 ≤ 0)]

/-- A tick with at most one second left expires the countdown: remaining is
floored to 0, the state becomes IDLE, tick/state_changed/finished fire, and
the engine auto-advances exactly when the duration is not manual. -/
theorem on_tick_expire (e : Engine) (h : e.remaining ≤ 1) :
    on_tick e =
      if e.manual_duration then
        ({ e with remaining := 0, state := TimerState.idle },
         [Event.tickE 0, Event.stateChangedE TimerState.idle,
          Event.finishedE e.mode])
      else
        ((advance_mode { e with remaining := 0, state := TimerState.idle }).1,
         [Event.tickE 0, Event.stateChangedE TimerState.idle,
          Event.finishedE e.mode]
           ++ (advance_mode { e with remaining := 0, state := TimerState.idle }).2) := by
  have h0 : (if e.remaining - 1 < 0 then (0 : ℤ) else e.remaining - 1) = 0 := by
    split <;> omega
  simp only [on_tick, h0]
  rw [if_pos (le_refl (0 : ℤ))]

/-- Every countdown event is a tick carrying a value in [1, k]. -/
theorem countdownEvs_mem :
    ∀ (k : ℕ) (ev : Event), ev ∈ countdownEvs k →
      ∃ r : ℤ, ev = Event.tickE r ∧ 1 ≤ r ∧ r ≤ (k : ℤ) := by
  intro k
  induction k with
  | zero => intro ev h; simp [countdownEvs] at h
  | succ k ih =>
    intro ev h
    simp only [countdownEvs, List.mem_cons] at h
    rcases h with h | h
    · exact ⟨(k : ℤ) + 1, h, by omega, by omega⟩
    · obtain ⟨r, h1, h2, h3⟩ := ih ev h
      exact ⟨r, h1, h2, by push_cast; omega⟩

/-- Running k ticks from remaining = k+1 counts down to remaining = 1,
emitting exactly the countdown tick events. -/
theorem runTicksEv_countdown :
    ∀ (k : ℕ) (e : Engine), e.remaining = (k : ℤ) + 1 →
      runTicksEv e k = ({ e with remaining := 1 }, countdownEvs k) := by
  intro k
  induction k with
  | zero =>
    intro e he
    cases e
    simp only [runTicksEv, countdownEvs]
    simp_all
  | succ k ih =>
    intro e he
    have h2 : 2 ≤ e.remaining := by omega
    simp only [runTicksEv, on_tick_running e h2, countdownEvs]
    rw [ih { e with remaining := e.remaining - 1 } (by simp; omega)]
    have h3 : e.remaining - 1 = (k : ℤ) + 1 := by omega
    simp [h3]

/-- Ticks compose: a+b ticks are a ticks followed by b ticks, events
concatenated. -/
theorem runTicksEv_add (a b : ℕ) (e : Engine) :
    runTicksEv e (a + b)
      = ((runTicksEv (runTicksEv e a).1 b).1,
         (runTicksEv e a).2 ++ (runTicksEv (runTicksEv e a).1 b).2) := by
  induction a generalizing e with
  | zero => simp [runTicksEv]
  | succ a ih =>
    have hn : a + 1 + b = (a + b) + 1 := by omega
    rw [hn]
    simp only [runTicksEv]
    rw [ih]
    simp

/-- presetOf ignores the persisted last mode. -/
theorem presetOf_last (s : Settings) (m m2 : Mode) :
    presetOf { s with last_mode := m2 } m = presetOf s m := by
  cases m <;> rfl

/-- Auto-advance never changes the run state or the manual flag. -/
theorem advance_mode_frame (e : Engine) :
    (advance_mode e).1.state = e.state ∧
    (advance_mode e).1.manual_duration = e.manual_duration := by
  cases hm : e.mode <;> simp [advance_mode, load_mode_duration, hm] <;>
    split <;> simp

/-- Auto-advance loads the new mode's preset as both total and remaining
and emits mode_changed then tick with that value; presets themselves are
untouched. -/
theorem advance_mode_loads (e : Engine) :
    (advance_mode e).1.remaining
        = presetOf e.settings (advance_mode e).1.mode * 60 ∧
    (advance_mode e).1.total_seconds
        = presetOf e.settings (advance_mode e).1.mode * 60 ∧
    (advance_mode e).2
        = [Event.modeChangedE (advance_mode e).1.mode,
           Event.tickE (presetOf e.settings (advance_mode e).1.mode * 60)] ∧
    (∀ m, presetOf (advance_mode e).1.settings m = presetOf e.settings m) := by
  cases hm : e.mode
  case work =>
    by_cases hc : e.work_count + 1 ≥ SETS_BEFORE_LONG <;>
      simp [advance_mode, load_mode_duration, hm, hc, presetOf_last, presetOf]
  case short =>
    simp [advance_mode, load_mode_duration, hm, presetOf_last, presetOf]
  case long =>
    simp [advance_mode, load_mode_duration, hm, presetOf_last, presetOf]

/-- Countdown events contain no finished event. -/
theorem countdownEvs_no_finished (k : ℕ) :
    ∀ ev ∈ countdownEvs k, ¬ isFinishedEv ev = true := by
  intro ev h
  obtain ⟨r, hr, _, _⟩ := countdownEvs_mem k ev h
  subst hr
  simp [isFinishedEv]

/-- Countdown events contain no negative tick. -/
theorem countdownEvs_no_neg_tick (k : ℕ) :
    ∀ ev ∈ countdownEvs k, ¬ isNegTickEv ev = true := by
  intro ev h
  obtain ⟨r, hr, h1, _⟩ := countdownEvs_mem k ev h
  subst hr
  simp [isNegTickEv]
  omega

/-- With nonnegative presets the auto-advance emits no negative tick
value. -/
theorem advance_mode_no_neg_tick (e : Engine)
    (hp : ∀ m, 0 ≤ presetOf e.settings m) :
    (advance_mode e).2.countP isNegTickEv = 0 := by
  obtain ⟨_, _, hevs, _⟩ := advance_mode_loads e
  rw [hevs]
  have h60 := hp (advance_mode e).1.mode
  simp [List.countP_cons, isNegTickEv]
  omega

/-- C2 amended: from RUNNING with remaining = k+1 > 0, exactly k+1 ticks
bring the engine to IDLE; exactly one finished event fires over the run, it
carries the mode that completed, and none fires during the first k ticks;
no emitted remaining value is below 0; and the final remaining is 0 when
the duration is manual (a non-manual expiry auto-advances, reloading the
next mode's preset as the new remaining). -/
theorem C2_countdown (e : Engine) (k : ℕ)
    (hst : e.state = TimerState.running)
    (hr : e.remaining = (k : ℤ) + 1)
    (hp : ∀ m, 0 ≤ presetOf e.settings m) :
    (runTicksEv e (k + 1)).1.state = TimerState.idle ∧
    ((runTicksEv e (k + 1)).2.countP isFinishedEv = 1) ∧
    ((runTicksEv e (k + 1)).2.count (Event.finishedE e.mode) = 1) ∧
    ((runTicksEv e k).2.countP isFinishedEv = 0) ∧
    ((runTicksEv e (k + 1)).2.countP isNegTickEv = 0) ∧
    (e.manual_duration = true → (runTicksEv e (k + 1)).1.remaining = 0) := by
  have hone : ∀ x : Engine, runTicksEv x 1 = ((on_tick x).1, (on_tick x).2) := by
    intro x
    simp [runTicksEv]
  have hnof : Event.finishedE e.mode ∉ countdownEvs k := by
    intro hc
    exact countdownEvs_no_finished k _ hc rfl
  have hsplit := runTicksEv_add k 1 e
  rw [runTicksEv_countdown k e hr, hone] at hsplit
  rw [on_tick_expire { e with remaining := 1 } (le_refl 1)] at hsplit
  rw [runTicksEv_countdown k e hr]
  by_cases hm : e.manual_duration
  · rw [if_pos (by simpa using hm)] at hsplit
    rw [hsplit]
    refine ⟨rfl, ?_, ?_, ?_, ?_, fun _ => rfl⟩
    · rw [List.countP_append, List.countP_eq_zero.mpr (countdownEvs_no_finished k)]
      rfl
    · rw [List.count_append, List.count_eq_zero.mpr hnof]
      simp [List.count_cons]
    · exact List.countP_eq_zero.mpr (countdownEvs_no_finished k)
    · rw [List.countP_append, List.countP_eq_zero.mpr (countdownEvs_no_neg_tick k)]
      rfl
  · rw [if_neg (by simpa using hm)] at hsplit
    rw [hsplit]
    obtain ⟨hrem, htot, hevs, hpres⟩ :=
      advance_mode_loads { { e with remaining := 1 } with remaining := 0, state := TimerState.idle }
    refine ⟨?_, ?_, ?_, ?_, ?_, fun hc => absurd hc hm⟩
    · exact (advance_mode_frame _).1
    · rw [List.countP_append, List.countP_eq_zero.mpr (countdownEvs_no_finished k), hevs]
      rfl
    · rw [List.count_append, List.count_eq_zero.mpr hnof, hevs]
      simp [List.count_cons]
    · exact List.countP_eq_zero.mpr (countdownEvs_no_finished k)
    · have hadv : (advance_mode { { e with remaining := 1 } with remaining := 0, state := TimerState.idle }).2.countP isNegTickEv = 0 :=
        advance_mode_no_neg_tick _ hp
      rw [List.countP_append, List.countP_eq_zero.mpr (countdownEvs_no_neg_tick k),
          List.countP_append, hadv]
      rfl

set_option maxRecDepth 4000 in
/-- C2 counterexample: from this reachable RUNNING state with remaining =
1, one tick reaches IDLE but remaining is not 0 — the non-manual expiry
auto-advances to short break and reloads 5*60 = 300. -/
theorem C2_counterexample :
    Reachable ceC2settings ceC2 ∧
    ceC2.state = TimerState.running ∧
    ceC2.remaining = 1 ∧
    (runTicksEv ceC2 1).1.state = TimerState.idle ∧
    (runTicksEv ceC2 1).1.remaining ≠ 0 := by
  exact ⟨⟨_, rfl⟩, by decide, by decide, by decide, by decide⟩

/-- Witness for C2 amended at a concrete manual-duration running engine
with remaining = 3: three ticks, one finished event, zero final
remaining. -/
theorem C2_witness :
    (runTicksEv { runningEngine with remaining := 3, manual_duration := true }
        (2 + 1)).1.state = TimerState.idle ∧
    ((runTicksEv { runningEngine with remaining := 3, manual_duration := true }
        (2 + 1)).2.countP isFinishedEv = 1) ∧
    ((runTicksEv { runningEngine with remaining := 3, manual_duration := true }
        (2 + 1)).2.count
      (Event.finishedE
        ({ runningEngine with remaining := 3, manual_duration := true } : Engine).mode)
        = 1) ∧
    ((runTicksEv { runningEngine with remaining := 3, manual_duration := true }
        2).2.countP isFinishedEv = 0) ∧
    ((runTicksEv { runningEngine with remaining := 3, manual_duration := true }
        (2 + 1)).2.countP isNegTickEv = 0) ∧
    (({ runningEngine with remaining := 3, manual_duration := true } : Engine).manual_duration
        = true →
      (runTicksEv { runningEngine with remaining := 3, manual_duration := true }
        (2 + 1)).1.remaining = 0) :=
  C2_countdown { runningEngine with remaining := 3, manual_duration := true }
    2 rfl (by decide) (by intro m; cases m <;> decide)

/-- A full session on an idle, non-manual engine with time on the clock:
press start, then let the clock tick the whole duration down.  The result
is the auto-advanced engine. -/
theorem run_session_spec (e : Engine) (h1 : e.state = TimerState.idle)
    (h2 : e.manual_duration = false) (h3 : 1 ≤ e.remaining) :
    run_session e
      = (advance_mode { e with remaining := 0, state := TimerState.idle }).1 := by
  unfold run_session
  have hs : (start_or_pause e).1 = { e with state := TimerState.running } := by
    simp only [start_or_pause, start]
    rw [if_neg (by simp [h1]), if_pos (by omega : e.remaining > 0),
        if_neg (by omega : ¬ e.remaining ≤ 0)]
  rw [hs]
  obtain ⟨k, hk⟩ : ∃ k : ℕ, e.remaining.toNat = k + 1 :=
    ⟨e.remaining.toNat - 1, by omega⟩
  rw [hk]
  have hr : ({ e with state := TimerState.running } : Engine).remaining
      = (k : ℤ) + 1 := by
    show e.remaining = (k : ℤ) + 1
    omega
  have hone : ∀ x : Engine, runTicksEv x 1 = ((on_tick x).1, (on_tick x).2) := by
    intro x
    simp [runTicksEv]
  rw [runTicksEv_add k 1, runTicksEv_countdown k _ hr, hone]
  rw [on_tick_expire { e with state := TimerState.running, remaining := 1 } (le_refl 1)]
  rw [if_neg (by simp [h2])]

/-- A session in work mode below the long-break threshold advances to a
short break and bumps the counter. -/
theorem session_work_to_short (e : Engine) (h1 : e.state = TimerState.idle)
    (h2 : e.manual_duration = false) (h3 : 1 ≤ e.remaining)
    (h4 : e.mode = Mode.work) (h5 : e.work_count + 1 < SETS_BEFORE_LONG) :
    run_session e
      = { e with
          mode := Mode.short,
          work_count := e.work_count + 1,
          settings := { e.settings with last_mode := Mode.short },
          state := TimerState.idle,
          total_seconds := e.settings.preset_short * 60,
          remaining := e.settings.preset_short * 60 } := by
  rw [run_session_spec e h1 h2 h3]
  have h5n : ¬ (e.work_count + 1 ≥ SETS_BEFORE_LONG) := by omega
  simp [advance_mode, load_mode_duration, h4, h5n, presetOf, presetOf_last]

/-- A session in work mode that reaches the threshold advances to the long
break and resets the counter. -/
theorem session_work_to_long (e : Engine) (h1 : e.state = TimerState.idle)
    (h2 : e.manual_duration = false) (h3 : 1 ≤ e.remaining)
    (h4 : e.mode = Mode.work) (h5 : e.work_count + 1 ≥ SETS_BEFORE_LONG) :
    run_session e
      = { e with
          mode := Mode.long,
          work_count := 0,
          settings := { e.settings with last_mode := Mode.long },
          state := TimerState.idle,
          total_seconds := e.settings.preset_long * 60,
          remaining := e.settings.preset_long * 60 } := by
  rw [run_session_spec e h1 h2 h3]
  simp [advance_mode, load_mode_duration, h4, h5, presetOf, presetOf_last]

/-- A session in a break mode always advances back to work, leaving the
counter alone. -/
theorem session_break_to_work (e : Engine) (h1 : e.state = TimerState.idle)
    (h2 : e.manual_duration = false) (h3 : 1 ≤ e.remaining)
    (h4 : e.mode ≠ Mode.work) :
    run_session e
      = { e with
          mode := Mode.work,
          settings := { e.settings with last_mode := Mode.work },
          state := TimerState.idle,
          total_seconds := e.settings.preset_work * 60,
          remaining := e.settings.preset_work * 60 } := by
  rw [run_session_spec e h1 h2 h3]
  simp [advance_mode, load_mode_duration, h4, presetOf, presetOf_last]

/-- C1: with positive presets, starting a cycle at work (focus) with the
counter at 0 and letting each loaded duration expire produces the mode
sequence work, short, work, short, work, short, work, long — the fourth
work expiry advances to the long break — with the counter back at 0 after
entering the long break; and a session expiring in a break mode always
advances back to work. -/
theorem C1_auto_advance_cycle (s : Settings)
    (hw : 1 ≤ s.preset_work) (hsh : 1 ≤ s.preset_short) (hl : 1 ≤ s.preset_long)
    (b : Engine) (hb1 : b.state = TimerState.idle)
    (hb2 : b.manual_duration = false) (hb3 : 1 ≤ b.remaining)
    (hb4 : b.mode ≠ Mode.work) :
    (cycleStart s).mode = Mode.work ∧
    (cycleStart s).work_count = 0 ∧
    (cycleStart s).manual_duration = false ∧
    (run_session (cycleStart s)).mode = Mode.short ∧
    (run_session (run_session (cycleStart s))).mode = Mode.work ∧
    (run_session (run_session (run_session (cycleStart s)))).mode = Mode.short ∧
    (run_session (run_session (run_session (run_session (cycleStart s))))).mode = Mode.work ∧
    (run_session (run_session (run_session (run_session (run_session (cycleStart s)))))).mode = Mode.short ∧
    (run_session (run_session (run_session (run_session (run_session (run_session (cycleStart s))))))).mode = Mode.work ∧
    (run_session (run_session (run_session (run_session (run_session (run_session (run_session (cycleStart s)))))))).mode = Mode.long ∧
    (run_session (run_session (run_session (run_session (run_session (run_session (run_session (cycleStart s)))))))).work_count = 0 ∧
    (run_session b).mode = Mode.work := by
  have hE0 : cycleStart s
      = { settings := { s with last_mode := Mode.work }, mode := Mode.work,
          state := TimerState.idle, total_seconds := s.preset_work * 60,
          remaining := s.preset_work * 60, work_count := 0,
          manual_duration := false } := by
    simp [cycleStart, set_mode, initEngine, load_mode_duration, presetOf]
  have h1 : run_session
      ({ settings := { s with last_mode := Mode.work }, mode := Mode.work,
         state := TimerState.idle, total_seconds := s.preset_work * 60,
         remaining := s.preset_work * 60, work_count := 0,
         manual_duration := false } : Engine)
      = { settings := { s with last_mode := Mode.short }, mode := Mode.short,
          state := TimerState.idle, total_seconds := s.preset_short * 60,
          remaining := s.preset_short * 60, work_count := 1,
          manual_duration := false } := by
    rw [session_work_to_short _ rfl rfl
        (by show (1 : ℤ) ≤ s.preset_work * 60; omega) rfl
        (by show (0 : ℤ) + 1 < SETS_BEFORE_LONG; decide)]
    rfl
  have h2 : run_session
      ({ settings := { s with last_mode := Mode.short }, mode := Mode.short,
         state := TimerState.idle, total_seconds := s.preset_short * 60,
         remaining := s.preset_short * 60, work_count := 1,
         manual_duration := false } : Engine)
      = { settings := { s with last_mode := Mode.work }, mode := Mode.work,
          state := TimerState.idle, total_seconds := s.preset_work * 60,
          remaining := s.preset_work * 60, work_count := 1,
          manual_duration := false } := by
    rw [session_break_to_work _ rfl rfl
        (by show (1 : ℤ) ≤ s.preset_short * 60; omega)
        (by show Mode.short ≠ Mode.work; decide)]
  have h3 : run_session
      ({ settings := { s with last_mode := Mode.work }, mode := Mode.work,
         state := TimerState.idle, total_seconds := s.preset_work * 60,
         remaining := s.preset_work * 60, work_count := 1,
         manual_duration := false } : Engine)
      = { settings := { s with last_mode := Mode.short }, mode := Mode.short,
          state := TimerState.idle, total_seconds := s.preset_short * 60,
          remaining := s.preset_short * 60, work_count := 2,
          manual_duration := false } := by
    rw [session_work_to_short _ rfl rfl
        (by show (1 : ℤ) ≤ s.preset_work * 60; omega) rfl
        (by show (1 : ℤ) + 1 < SETS_BEFORE_LONG; decide)]
    rfl
  have h4 : run_session
      ({ settings := { s with last_mode := Mode.short }, mode := Mode.short,
         state := TimerState.idle, total_seconds := s.preset_short * 60,
         remaining := s.preset_short * 60, work_count := 2,
         manual_duration := false } : Engine)
      = { settings := { s with last_mode := Mode.work }, mode := Mode.work,
          state := TimerState.idle, total_seconds := s.preset_work * 60,
          remaining := s.preset_work * 60, work_count := 2,
          manual_duration := false } := by
    rw [session_break_to_work _ rfl rfl
        (by show (1 : ℤ) ≤ s.preset_short * 60; omega)
        (by show Mode.short ≠ Mode.work; decide)]
  have h5 : run_session
      ({ settings := { s with last_mode := Mode.work }, mode := Mode.work,
         state := TimerState.idle, total_seconds := s.preset_work * 60,
         remaining := s.preset_work * 60, work_count := 2,
         manual_duration := false } : Engine)
      = { settings := { s with last_mode := Mode.short }, mode := Mode.short,
          state := TimerState.idle, total_seconds := s.preset_short * 60,
          remaining := s.preset_short * 60, work_count := 3,
          manual_duration := false } := by
    rw [session_work_to_short _ rfl rfl
        (by show (1 : ℤ) ≤ s.preset_work * 60; omega) rfl
        (by show (2 : ℤ) + 1 < SETS_BEFORE_LONG; decide)]
    rfl
  have h6 : run_session
      ({ settings := { s with last_mode := Mode.short }, mode := Mode.short,
         state := TimerState.idle, total_seconds := s.preset_short * 60,
         remaining := s.preset_short * 60, work_count := 3,
         manual_duration := false } : Engine)
      = { settings := { s with last_mode := Mode.work }, mode := Mode.work,
          state := TimerState.idle, total_seconds := s.preset_work * 60,
          remaining := s.preset_work * 60, work_count := 3,
          manual_duration := false } := by
    rw [session_break_to_work _ rfl rfl
        (by show (1 : ℤ) ≤ s.preset_short * 60; omega)
        (by show Mode.short ≠ Mode.work; decide)]
  have h7 : run_session
      ({ settings := { s with last_mode := Mode.work }, mode := Mode.work,
         state := TimerState.idle, total_seconds := s.preset_work * 60,
         remaining := s.preset_work * 60, work_count := 3,
         manual_duration := false } : Engine)
      = { settings := { s with last_mode := Mode.long }, mode := Mode.long,
          state := TimerState.idle, total_seconds := s.preset_long * 60,
          remaining := s.preset_long * 60, work_count := 0,
          manual_duration := false } := by
    rw [session_work_to_long _ rfl rfl
        (by show (1 : ℤ) ≤ s.preset_work * 60; omega) rfl
        (by show (3 : ℤ) + 1 ≥ SETS_BEFORE_LONG; decide)]
  rw [hE0, h1, h2, h3, h4, h5, h6, h7,
      session_break_to_work b hb1 hb2 hb3 hb4]
  exact ⟨rfl, rfl, rfl, rfl, rfl, rfl, rfl, rfl, rfl, rfl, rfl, rfl⟩

/-- Witness for C1 with one-minute presets and a concrete short-break
engine for the break-expiry clause. -/
theorem C1_witness :
    (cycleStart ⟨1, 1, 1, Mode.work⟩).mode = Mode.work ∧
    (cycleStart ⟨1, 1, 1, Mode.work⟩).work_count = 0 ∧
    (cycleStart ⟨1, 1, 1, Mode.work⟩).manual_duration = false ∧
    (run_session (cycleStart ⟨1, 1, 1, Mode.work⟩)).mode = Mode.short ∧
    (run_session (run_session (cycleStart ⟨1, 1, 1, Mode.work⟩))).mode = Mode.work ∧
    (run_session (run_session (run_session (cycleStart ⟨1, 1, 1, Mode.work⟩)))).mode = Mode.short ∧
    (run_session (run_session (run_session (run_session (cycleStart ⟨1, 1, 1, Mode.work⟩))))).mode = Mode.work ∧
    (run_session (run_session (run_session (run_session (run_session (cycleStart ⟨1, 1, 1, Mode.work⟩)))))).mode = Mode.short ∧
    (run_session (run_session (run_session (run_session (run_session (run_session (cycleStart ⟨1, 1, 1, Mode.work⟩))))))).mode = Mode.work ∧
    (run_session (run_session (run_session (run_session (run_session (run_session (run_session (cycleStart ⟨1, 1, 1, Mode.work⟩)))))))).mode = Mode.long ∧
    (run_session (run_session (run_session (run_session (run_session (run_session (run_session (cycleStart ⟨1, 1, 1, Mode.work⟩)))))))).work_count = 0 ∧
    (run_session
      ({ settings := ⟨1, 1, 1, Mode.short⟩, mode := Mode.short,
         state := TimerState.idle, total_seconds := 60, remaining := 60,
         work_count := 0, manual_duration := false } : Engine)).mode = Mode.work :=
  C1_auto_advance_cycle ⟨1, 1, 1, Mode.work⟩ (by decide) (by decide) (by decide)
    _ rfl rfl (by decide) (by decide)

/-- C4: a manually set duration that reaches zero fires `finished` but does
not auto-advance: the tick handler leaves the mode and the completed-focus
counter unchanged, ends IDLE with remaining 0, and emits the finished
event. -/
theorem C4_manual_no_advance (e : Engine)
    (hm : e.manual_duration = true) (hr : e.remaining ≤ 1) :
    (on_tick e).1.mode = e.mode ∧
    (on_tick e).1.work_count = e.work_count ∧
    (on_tick e).1.state = TimerState.idle ∧
    (on_tick e).1.remaining = 0 ∧
    Event.finishedE e.mode ∈ (on_tick e).2 := by
  have h0 : (if e.remaining - 1 < 0 then (0 : ℤ) else e.remaining - 1) = 0 := by
    split <;> omega
  simp only [on_tick, h0, hm]
  simp

/-- Witness for C4 at a concrete manual-duration engine one second from
expiry. -/
theorem C4_witness :
    (on_tick { runningEngine with manual_duration := true, remaining := 1 }).1.mode
        = { runningEngine with manual_duration := true, remaining := 1 }.mode ∧
    (on_tick { runningEngine with manual_duration := true, remaining := 1 }).1.work_count
        = { runningEngine with manual_duration := true, remaining := 1 }.work_count ∧
    (on_tick { runningEngine with manual_duration := true, remaining := 1 }).1.state
        = TimerState.idle ∧
    (on_tick { runningEngine with manual_duration := true, remaining := 1 }).1.remaining
        = 0 ∧
    Event.finishedE { runningEngine with manual_duration := true, remaining := 1 }.mode
        ∈ (on_tick { runningEngine with manual_duration := true, remaining := 1 }).2 :=
  C4_manual_no_advance _ (by decide) (by decide)

/-- C5: `set_duration` in IDLE or PAUSED silently clamps any integer into
[0, MAX_DIAL_MIN*60], sets remaining = total = clamped value, and marks the
duration manual. -/
theorem C5_set_duration_clamps (e : Engine) (s : ℤ)
    (h : e.state = TimerState.idle ∨ e.state = TimerState.paused) :
    (set_duration e s).1.remaining = max 0 (min (MAX_DIAL_MIN * 60) s) ∧
    (set_duration e s).1.total_seconds = max 0 (min (MAX_DIAL_MIN * 60) s) ∧
    (set_duration e s).1.manual_duration = true := by
  rcases h with h | h <;> simp [set_duration, h]

/-- Witness for C5: the freshly built engine is IDLE; requesting -100
seconds clamps to 0. -/
theorem C5_witness :
    (set_duration (initEngine defaultSettings) (-100)).1.remaining
        = max 0 (min (MAX_DIAL_MIN * 60) (-100)) ∧
    (set_duration (initEngine defaultSettings) (-100)).1.total_seconds
        = max 0 (min (MAX_DIAL_MIN * 60) (-100)) ∧
    (set_duration (initEngine defaultSettings) (-100)).1.manual_duration = true :=
  C5_set_duration_clamps _ _ (Or.inl rfl)

/-- C6: `set_mode X` while RUNNING stops the countdown, yielding IDLE with
remaining = total = presets[X]*60, a non-manual duration, and the events
mode_changed, tick (remaining-changed), state_changed, in that order. -/
theorem C6_set_mode_while_running (e : Engine) (m : Mode)
    (h : e.state = TimerState.running) :
    (set_mode e m).1.state = TimerState.idle ∧
    (set_mode e m).1.mode = m ∧
    (set_mode e m).1.remaining = presetOf e.settings m * 60 ∧
    (set_mode e m).1.total_seconds = presetOf e.settings m * 60 ∧
    (set_mode e m).1.manual_duration = false ∧
    (set_mode e m).2 =
      [Event.modeChangedE m, Event.tickE (presetOf e.settings m * 60),
       Event.stateChangedE TimerState.idle] := by
  cases m <;> simp [set_mode, load_mode_duration, presetOf]

/-- Witness for C6 at a concrete running engine switched to long break. -/
theorem C6_witness :
    (set_mode runningEngine Mode.long).1.state = TimerState.idle ∧
    (set_mode runningEngine Mode.long).1.mode = Mode.long ∧
    (set_mode runningEngine Mode.long).1.remaining
        = presetOf runningEngine.settings Mode.long * 60 ∧
    (set_mode runningEngine Mode.long).1.total_seconds
        = presetOf runningEngine.settings Mode.long * 60 ∧
    (set_mode runningEngine Mode.long).1.manual_duration = false ∧
    (set_mode runningEngine Mode.long).2 =
      [Event.modeChangedE Mode.long,
       Event.tickE (presetOf runningEngine.settings Mode.long * 60),
       Event.stateChangedE TimerState.idle] :=
  C6_set_mode_while_running _ _ rfl

/-- C7 counterexample: the constructor does not load the preset duration.
With the default settings the last mode is work (preset 25 minutes), yet
the fresh engine has remaining = 0, not 1500, and its duration is marked
manual, not non-manual. -/
theorem C7_counterexample :
    (initEngine defaultSettings).remaining
        ≠ presetOf defaultSettings (initEngine defaultSettings).mode * 60 ∧
    (initEngine defaultSettings).manual_duration ≠ false := by
  decide

/-- C7 amended: immediately after construction the mode is the persisted
last mode and the state is IDLE, but remaining = total = 0 with the
duration marked manual (no preset is loaded until a mode switch). -/
theorem C7_init_state (s : Settings) :
    (initEngine s).mode = s.last_mode ∧
    (initEngine s).state = TimerState.idle ∧
    (initEngine s).remaining = 0 ∧
    (initEngine s).total_seconds = 0 ∧
    (initEngine s).manual_duration = true ∧
    (initEngine s).work_count = 0 := by
  exact ⟨rfl, rfl, rfl, rfl, rfl, rfl⟩

/-- C8 counterexample: a reachable PAUSED state from which `start_or_pause`
does not go to RUNNING (it stays PAUSED because remaining = 0). -/
theorem C8_counterexample :
    Reachable defaultSettings ceC8 ∧
    ceC8.state = TimerState.paused ∧
    (start_or_pause ceC8).1.state ≠ TimerState.running := by
  exact ⟨⟨_, rfl⟩, by decide, by decide⟩

/-- C8 amended: from a PAUSED state the toggle resumes to RUNNING exactly
when remaining > 0; with remaining = 0 (reachable by dialing the duration
to zero while paused) the toggle is a no-op. -/
theorem C8_paused_toggle (e : Engine) (h : e.state = TimerState.paused) :
    (0 < e.remaining → (start_or_pause e).1.state = TimerState.running) ∧
    (e.remaining ≤ 0 → (start_or_pause e).1 = e) := by
  constructor
  · intro h2
    simp only [start_or_pause, start]
    rw [if_neg (by simp [h]), if_pos h2, if_neg (by omega)]
  · intro h2
    simp only [start_or_pause]
    rw [if_neg (by simp [h]), if_neg (by omega)]

/-- Witness for C8 amended: resuming a concrete paused engine with time
left really reaches RUNNING. -/
theorem C8_witness :
    (start_or_pause pausedEngine).1.state = TimerState.running :=
  (C8_paused_toggle pausedEngine rfl).1 (by decide)

/-- Auto-advance preserves the preset configuration. -/
theorem advance_mode_presets (e : Engine) (m : Mode) :
    presetOf (advance_mode e).1.settings m = presetOf e.settings m :=
  (advance_mode_loads e).2.2.2 m

/-- The start/pause toggle never touches remaining or total. -/
theorem start_or_pause_frame (e : Engine) :
    (start_or_pause e).1.remaining = e.remaining ∧
    (start_or_pause e).1.total_seconds = e.total_seconds := by
  simp only [start_or_pause, start, pause]
  split
  · exact ⟨rfl, rfl⟩
  · split
    · split
      · exact ⟨rfl, rfl⟩
      · exact ⟨rfl, rfl⟩
    · exact ⟨rfl, rfl⟩

/-- Every operation preserves the preset configuration (only last_mode is
ever written back to settings). -/
theorem applyOp_presets (e : Engine) (op : Op) (m : Mode) :
    presetOf (applyOp e op).1.settings m = presetOf e.settings m := by
  cases op with
  | opStartOrPause =>
    show presetOf (start_or_pause e).1.settings m = presetOf e.settings m
    simp only [start_or_pause, start, pause]
    split
    · rfl
    · split
      · split
        · rfl
        · rfl
      · rfl
  | opSetDuration sec =>
    show presetOf (set_duration e sec).1.settings m = presetOf e.settings m
    simp only [set_duration]
    split
    · rfl
    · rfl
  | opReset => rfl
  | opSetMode m2 =>
    show presetOf { e.settings with last_mode := m2 } m = presetOf e.settings m
    exact presetOf_last _ _ _
  | opTick =>
    show presetOf (if e.state = TimerState.running then on_tick e else (e, [])).1.settings m
        = presetOf e.settings m
    split
    · by_cases hr : e.remaining ≤ 1
      · rw [on_tick_expire e hr]
        by_cases hm : e.manual_duration
        · rw [if_pos hm]
        · rw [if_neg hm]
          exact advance_mode_presets _ m
      · rw [on_tick_running e (by omega)]
    · rfl

/-- With nonnegative presets the auto-advanced engine satisfies the
invariant. -/
theorem advance_mode_inv (e : Engine)
    (hp : ∀ m, 0 ≤ presetOf e.settings m) : Inv (advance_mode e).1 := by
  obtain ⟨hrem, htot, _, _⟩ := advance_mode_loads e
  constructor
  · rw [hrem]
    have := hp (advance_mode e).1.mode
    omega
  · rw [hrem, htot]

/-- A tick preserves the invariant. -/
theorem on_tick_inv (e : Engine) (hp : ∀ m, 0 ≤ presetOf e.settings m)
    (h1 : 0 ≤ e.remaining) (h2 : e.remaining ≤ e.total_seconds) :
    Inv (on_tick e).1 := by
  by_cases hr : e.remaining ≤ 1
  · rw [on_tick_expire e hr]
    by_cases hm : e.manual_duration
    · rw [if_pos hm]
      refine ⟨?_, ?_⟩
      · show (0 : ℤ) ≤ 0
        norm_num
      · show (0 : ℤ) ≤ e.total_seconds
        omega
    · rw [if_neg hm]
      exact advance_mode_inv _ hp
  · rw [on_tick_running e (by omega)]
    refine ⟨?_, ?_⟩
    · show (0 : ℤ) ≤ e.remaining - 1
      omega
    · show e.remaining - 1 ≤ e.total_seconds
      omega

/-- Every engine operation preserves the invariant, given nonnegative
presets. -/
theorem applyOp_inv (e : Engine) (op : Op)
    (hp : ∀ m, 0 ≤ presetOf e.settings m) (h : Inv e) :
    Inv (applyOp e op).1 := by
  obtain ⟨h1, h2⟩ := h
  cases op with
  | opStartOrPause =>
    obtain ⟨hr, ht⟩ := start_or_pause_frame e
    show Inv (start_or_pause e).1
    exact ⟨by rw [hr]; exact h1, by rw [hr, ht]; exact h2⟩
  | opSetDuration sec =>
    show Inv (set_duration e sec).1
    simp only [set_duration]
    split
    · exact ⟨le_max_left 0 _, le_refl _⟩
    · exact ⟨h1, h2⟩
  | opReset => exact ⟨le_refl 0, le_refl 0⟩
  | opSetMode m2 =>
    refine ⟨?_, ?_⟩
    · show 0 ≤ presetOf { e.settings with last_mode := m2 } m2 * 60
      rw [presetOf_last]
      have := hp m2
      omega
    · show presetOf { e.settings with last_mode := m2 } m2 * 60
          ≤ presetOf { e.settings with last_mode := m2 } m2 * 60
      exact le_refl _
  | opTick =>
    show Inv (if e.state = TimerState.running then on_tick e else (e, [])).1
    split
    · exact on_tick_inv e hp h1 h2
    · exact ⟨h1, h2⟩

/-- The invariant holds along every operation sequence from the fresh
engine. -/
theorem applyOps_inv (s : Settings) (hp : ∀ m, 0 ≤ presetOf s m) :
    ∀ ops : List Op, Inv (applyOps (initEngine s) ops) := by
  suffices h : ∀ (ops : List Op) (e : Engine),
      (∀ m, 0 ≤ presetOf e.settings m) → Inv e → Inv (applyOps e ops) by
    intro ops
    exact h ops (initEngine s) hp ⟨le_refl 0, le_refl 0⟩
  intro ops
  induction ops with
  | nil => intro e hpe he; exact he
  | cons op rest ih =>
    intro e hpe he
    exact ih (applyOp e op).1
      (fun m => by rw [applyOp_presets]; exact hpe m)
      (applyOp_inv e op hpe he)

/-- C9: with nonnegative preset minutes, 0 <= remaining <= total holds in
the initial state, is preserved by every engine operation (start/pause,
setDuration, reset, setMode, tick), and therefore holds in every reachable
snapshot. -/
theorem C9_invariant (s : Settings) (hp : ∀ m, 0 ≤ presetOf s m) :
    Inv (initEngine s) ∧
    (∀ (e : Engine) (op : Op), (∀ m, 0 ≤ presetOf e.settings m) → Inv e →
      Inv (applyOp e op).1) ∧
    (∀ e : Engine, Reachable s e → Inv e) := by
  refine ⟨⟨le_refl 0, le_refl 0⟩,
          fun e op hpe he => applyOp_inv e op hpe he, ?_⟩
  rintro e ⟨ops, rfl⟩
  exact applyOps_inv s hp ops

/-- Witness for C9 at the default settings. -/
theorem C9_witness :
    Inv (initEngine defaultSettings) ∧
    (∀ (e : Engine) (op : Op), (∀ m, 0 ≤ presetOf e.settings m) → Inv e →
      Inv (applyOp e op).1) ∧
    (∀ e : Engine, Reachable defaultSettings e → Inv e) :=
  C9_invariant defaultSettings (by intro m; cases m <;> decide)

/-- C10: an explicit mode switch never touches the completed-focus counter,
and neither do set_duration, reset, or the start/pause toggle — only
auto-advance does. -/
theorem C10_work_count_frame (e : Engine) (m : Mode) (s : ℤ) :
    (set_mode e m).1.work_count = e.work_count ∧
    (set_duration e s).1.work_count = e.work_count ∧
    (reset e).1.work_count = e.work_count ∧
    (start_or_pause e).1.work_count = e.work_count := by
  refine ⟨rfl, ?_, rfl, ?_⟩
  · simp only [set_duration]
    split <;> rfl
  · simp only [start_or_pause, start, pause]
    split
    · rfl
    · split
      · split <;> rfl
      · rfl

/-- math.atan2(y, x): the argument of the complex number x + y*i, valued
in (-pi, pi]. -/
noncomputable def atan2 (y x : ℝ) : ℝ := Complex.arg (x + y * Complex.I)
/-- Python 3 round(): nearest integer, ties to the even neighbour. -/
noncomputable def pyRound (x : ℝ) : ℤ :=
  if Int.fract x = 1 / 2 then
    if Even ⌊x⌋ then ⌊x⌋ else ⌊x⌋ + 1
  else round x
/-- `PomodoroWidget._pos_to_minutes`: angle of the point relative to the
center via atan2, rotated by +pi/2 so 12 o'clock is 0, normalized into
[0, 2*pi), scaled to minutes, rounded, clamped to [0, MAX_DIAL_MIN]. -/
noncomputable def pos_to_minutes (pos : Point) (cx cy : ℝ) : ℤ :=
  let dx := pos.x - cx
  let dy := pos.y - cy
  let ang := atan2 dy dx
  let ang2 := ang + Real.pi / 2
  let ang3 := if ang2 < 0 then ang2 + 2 * Real.pi else ang2
  let ratio := ang3 / (2 * Real.pi)
  max 0 (min MAX_DIAL_MIN (pyRound (ratio * (MAX_DIAL_MIN : ℝ))))
/-- `PomodoroWidget._minutes_to_angle`: clamp to [0, MAX_DIAL_MIN], scale
to a fraction of the full circle, rotate so 0 minutes points at
12 o'clock. -/
noncomputable def minutes_to_angle (minutes : ℝ) : ℝ :=
  let m := max 0 (min (MAX_DIAL_MIN : ℝ) minutes)
  let ratio := m / (MAX_DIAL_MIN : ℝ)
  ratio * 2 * Real.pi - Real.pi / 2
/-- The dial point at distance r from the center along angle theta, as
drawn by `_draw_hand`: (cx + r*cos(theta), cy + r*sin(theta)). -/
noncomputable def pointAt (cx cy r θ : ℝ) : Point :=
  ⟨cx + r * Real.cos θ, cy + r * Real.sin θ⟩
/-- pos_to_minutes with its let-bindings expanded. -/
theorem pos_to_minutes_eq (p : Point) (cx cy : ℝ) :
    pos_to_minutes p cx cy
      = max 0 (min MAX_DIAL_MIN (pyRound
          ((if atan2 (p.y - cy) (p.x - cx) + Real.pi / 2 < 0
            then atan2 (p.y - cy) (p.x - cx) + Real.pi / 2 + 2 * Real.pi
            else atan2 (p.y - cy) (p.x - cx) + Real.pi / 2) / (2 * Real.pi)
            * (MAX_DIAL_MIN : ℝ)))) := rfl

/-- Python round agrees with the integer on exact integers. -/
theorem pyRound_intCast (n : ℤ) : pyRound ((n : ℤ) : ℝ) = n := by
  unfold pyRound
  rw [Int.fract_intCast, if_neg (by norm_num), round_intCast]

/-- atan2 of a positively scaled cosine/sine pair is the argument of the
unit complex number at that angle. -/
theorem atan2_rcos_rsin (r θ : ℝ) (hr : 0 < r) :
    atan2 (r * Real.sin θ) (r * Real.cos θ)
      = Complex.arg (Real.cos θ + Real.sin θ * Complex.I) := by
  unfold atan2
  rw [show ((r * Real.cos θ : ℝ) : ℂ) + ((r * Real.sin θ : ℝ) : ℂ) * Complex.I
        = (r : ℝ) * (((Real.cos θ : ℝ) : ℂ) + ((Real.sin θ : ℝ) : ℂ) * Complex.I) by
      push_cast
      ring]
  exact Complex.arg_real_mul _ hr

/-- In the principal range the argument recovers the angle. -/
theorem arg_of_angle_low (θ : ℝ) (hl : -Real.pi < θ) (hu : θ ≤ Real.pi) :
    Complex.arg (Real.cos θ + Real.sin θ * Complex.I) = θ := by
  rw [Complex.ofReal_cos, Complex.ofReal_sin]
  exact Complex.arg_cos_add_sin_mul_I ⟨hl, hu⟩

/-- One turn above the principal range the argument recovers the angle
minus a full turn. -/
theorem arg_of_angle_high (θ : ℝ) (hl : Real.pi < θ) (hu : θ ≤ 3 * Real.pi) :
    Complex.arg (Real.cos θ + Real.sin θ * Complex.I) = θ - 2 * Real.pi := by
  have h := arg_of_angle_low (θ - 2 * Real.pi) (by linarith) (by linarith)
  rw [Real.cos_sub_two_pi, Real.sin_sub_two_pi] at h
  exact h

/-- The full dial roundtrip: for integer minutes m in [0, 60], reading the
pointer position drawn for m yields m modulo the full circle (m for
m < 60, and 0 at the wrap-around m = 60). -/
theorem dial_roundtrip (m : ℤ) (h0 : 0 ≤ m) (h1 : m ≤ 60)
    (cx cy r : ℝ) (hr : 0 < r) :
    pos_to_minutes (pointAt cx cy r (minutes_to_angle ((m : ℤ) : ℝ))) cx cy
      = m % 60 := by
  have hpi := Real.pi_pos
  have hm0 : (0 : ℝ) ≤ (m : ℝ) := by exact_mod_cast h0
  have hm1 : (m : ℝ) ≤ 60 := by exact_mod_cast h1
  have hmul0 : 0 ≤ (m : ℝ) * Real.pi := mul_nonneg hm0 hpi.le
  have hmul1 : (m : ℝ) * Real.pi ≤ 60 * Real.pi :=
    mul_le_mul_of_nonneg_right hm1 hpi.le
  have hMAX : ((MAX_DIAL_MIN : ℤ) : ℝ) = 60 := by norm_num [MAX_DIAL_MIN]
  have hang : minutes_to_angle ((m : ℤ) : ℝ)
      = (m : ℝ) * Real.pi / 30 - Real.pi / 2 := by
    unfold minutes_to_angle
    rw [hMAX, min_eq_right hm1, max_eq_right hm0]
    ring
  rw [hang, pos_to_minutes_eq]
  have hgx : (pointAt cx cy r ((m : ℝ) * Real.pi / 30 - Real.pi / 2)).x - cx
      = r * Real.cos ((m : ℝ) * Real.pi / 30 - Real.pi / 2) := by
    simp [pointAt]
  have hgy : (pointAt cx cy r ((m : ℝ) * Real.pi / 30 - Real.pi / 2)).y - cy
      = r * Real.sin ((m : ℝ) * Real.pi / 30 - Real.pi / 2) := by
    simp [pointAt]
  rw [hgx, hgy, atan2_rcos_rsin r _ hr, hMAX]
  rcases le_or_lt m 45 with hc | hc
  · have hm45 : (m : ℝ) ≤ 45 := by exact_mod_cast hc
    have hmul45 : (m : ℝ) * Real.pi ≤ 45 * Real.pi :=
      mul_le_mul_of_nonneg_right hm45 hpi.le
    rw [arg_of_angle_low _ (by linarith) (by linarith)]
    have hA : (m : ℝ) * Real.pi / 30 - Real.pi / 2 + Real.pi / 2
        = (m : ℝ) * Real.pi / 30 := by ring
    rw [hA, if_neg (not_lt.mpr (by linarith))]
    have hval : (m : ℝ) * Real.pi / 30 / (2 * Real.pi) * 60 = ((m : ℤ) : ℝ) := by
      field_simp
      ring
    rw [hval, pyRound_intCast]
    simp only [MAX_DIAL_MIN]
    omega
  · have hm46 : (46 : ℝ) ≤ (m : ℝ) := by exact_mod_cast hc
    have hmul46 : 46 * Real.pi ≤ (m : ℝ) * Real.pi :=
      mul_le_mul_of_nonneg_right hm46 hpi.le
    rw [arg_of_angle_high _ (by linarith) (by linarith)]
    have hA : (m : ℝ) * Real.pi / 30 - Real.pi / 2 - 2 * Real.pi + Real.pi / 2
        = (m : ℝ) * Real.pi / 30 - 2 * Real.pi := by ring
    rw [hA]
    rcases eq_or_lt_of_le h1 with he | hlt
    · subst he
      have hz : ((60 : ℤ) : ℝ) * Real.pi / 30 - 2 * Real.pi = 0 := by
        push_cast
        ring
      rw [hz, if_neg (lt_irrefl 0)]
      have h00 : (0 : ℝ) / (2 * Real.pi) * 60 = ((0 : ℤ) : ℝ) := by
        push_cast
        ring
      rw [h00, pyRound_intCast]
      simp [MAX_DIAL_MIN]
    · have hm59 : (m : ℝ) ≤ 59 := by exact_mod_cast (by omega : m ≤ 59)
      have hmul59 : (m : ℝ) * Real.pi ≤ 59 * Real.pi :=
        mul_le_mul_of_nonneg_right hm59 hpi.le
      rw [if_pos (by linarith : (m : ℝ) * Real.pi / 30 - 2 * Real.pi < 0)]
      have hA2 : (m : ℝ) * Real.pi / 30 - 2 * Real.pi + 2 * Real.pi
          = (m : ℝ) * Real.pi / 30 := by ring
      rw [hA2]
      have hval : (m : ℝ) * Real.pi / 30 / (2 * Real.pi) * 60 = ((m : ℤ) : ℝ) := by
        field_simp
        ring
      rw [hval, pyRound_intCast]
      simp only [MAX_DIAL_MIN]
      omega

/-- C3 counterexample: the dial position drawn for 60 minutes is the
12 o'clock point, the same as for 0 minutes, and reading it back yields 0,
not 60. -/
theorem C3_counterexample :
    pos_to_minutes (pointAt 0 0 1 (minutes_to_angle ((60 : ℤ) : ℝ))) 0 0 ≠ 60 := by
  rw [dial_roundtrip 60 (by norm_num) (le_refl 60) 0 0 1 one_pos]
  decide

/-- C3 amended: for every integer m in [0, 60) the roundtrip through the
dial geometry is exact: reading back the point drawn at angle
minutes_to_angle(m) yields m.  At m = 60 the drawn point coincides with
the one for 0 and reads back as 0. -/
theorem C3_roundtrip (m : ℤ) (h0 : 0 ≤ m) (h1 : m < 60)
    (cx cy r : ℝ) (hr : 0 < r) :
    pos_to_minutes (pointAt cx cy r (minutes_to_angle ((m : ℤ) : ℝ))) cx cy
      = m := by
  rw [dial_roundtrip m h0 (by omega) cx cy r hr]
  omega

/-- Witness for C3 at the spec's example of 37 minutes on the unit dial. -/
theorem C3_witness :
    pos_to_minutes (pointAt 0 0 1 (minutes_to_angle ((37 : ℤ) : ℝ))) 0 0 = 37 :=
  C3_roundtrip 37 (by norm_num) (by norm_num) 0 0 1 one_pos

end Pomodoro
